import Mathlib

/-!
Verification of the warm-pool sandbox executor.

Shallow embedding of the core: worker handles (`src/core/warm_pool/container.py`),
the pool manager (`src/core/warm_pool/manager.py`), the local Docker provider
(`src/core/executor/providers/local_docker.py`), the provider registry
(`src/core/executor/registry.py`) and request validation
(`src/core/executor/models.py`).

Python float timestamps and durations are modelled as exact rationals (ℚ);
machine containers are identified by their (unique) short id string; in-place
mutation of a handle shared between caller and pool is modelled by updating
every pool entry with the handle's id (ids are unique in a pool).
-/

namespace Sandbox

/-! ### Runtime and provider enumerations (`interface.py`) -/

inductive Runtime where
  | python311
  | python312
  | node20
  | node22
  | go121
  | go122
  | rustLatest
  | java17
  | java21
deriving DecidableEq, Repr

inductive ExecutorProvider where
  | local_docker
  | aws_lambda
  | gcp_cloud_run
  | azure_container
deriving DecidableEq, Repr

/-! ### Worker handle (`warm_pool/container.py`) -/

inductive ContainerState where
  | creating
  | warm
  | busy
  | resetting
  | unhealthy
  | terminating
deriving DecidableEq, Repr

structure WarmContainer where
  container_id : String
  runtime : String
  state : ContainerState := .creating
  created_at : ℚ
  last_used_at : ℚ
  last_health_check_at : ℚ
  execution_count : ℕ := 0
  total_execution_time_ms : ℚ := 0
  error_count : ℕ := 0
  consecutive_failures : ℕ := 0
  last_error : Option String := none
deriving DecidableEq, Repr

namespace WarmContainer

def age_seconds (c : WarmContainer) (now : ℚ) : ℚ :=
  now - c.created_at

def idle_seconds (c : WarmContainer) (now : ℚ) : ℚ :=
  now - c.last_used_at

def is_available (c : WarmContainer) : Bool :=
  c.state = ContainerState.warm

def mark_busy (c : WarmContainer) (now : ℚ) : WarmContainer :=
  { c with state := .busy, last_used_at := now }

def mark_warm (c : WarmContainer) : WarmContainer :=
  { c with state := .warm }

def mark_resetting (c : WarmContainer) : WarmContainer :=
  { c with state := .resetting }

def mark_terminating (c : WarmContainer) : WarmContainer :=
  { c with state := .terminating }

def record_execution (c : WarmContainer) (execution_time_ms : ℚ) (success : Bool) :
    WarmContainer :=
  let c := { c with
    execution_count := c.execution_count + 1
    total_execution_time_ms := c.total_execution_time_ms + execution_time_ms }
  if success then
    { c with consecutive_failures := 0, last_error := none }
  else
    { c with
      error_count := c.error_count + 1
      consecutive_failures := c.consecutive_failures + 1 }

def should_replace (c : WarmContainer) (max_age_seconds max_idle_seconds now : ℚ) :
    Bool :=
  if c.age_seconds now > max_age_seconds then true
  else if c.idle_seconds now > max_idle_seconds then true
  else if c.state = ContainerState.unhealthy then true
  else if c.execution_count ≥ 10 ∧ c.consecutive_failures ≥ 3 then true
  else false

def mark_unhealthy (c : WarmContainer) (error : Option String) : WarmContainer :=
  { c with
    state := .unhealthy
    consecutive_failures := c.consecutive_failures + 1
    last_error := match error with | some e => some e | none => c.last_error }

def record_health_check (c : WarmContainer) (now : ℚ) (healthy : Bool)
    (error : Option String) : WarmContainer :=
  let c := { c with last_health_check_at := now }
  if healthy then
    { c with consecutive_failures := 0, last_error := none }
  else
    c.mark_unhealthy error

end WarmContainer

/-! ### Pool manager (`warm_pool/manager.py`)

A pool is the per-runtime list of worker handles.  Python mutates the handle
object shared between the pool list and the caller; that is modelled by
updating every pool entry carrying the handle's id (pool ids are unique). -/

namespace WarmPoolManager

/-- Model of `WarmPoolManager.acquire`: scan the pool in order, flip the first WARM
handle to BUSY in place and return it; `none` when no handle is WARM. -/
def acquire (now : ℚ) : List WarmContainer → Option WarmContainer × List WarmContainer
  | [] => (none, [])
  | c :: rest =>
    if c.is_available then
      (some (c.mark_busy now), c.mark_busy now :: rest)
    else
      ((acquire now rest).1, c :: (acquire now rest).2)

/-- In-place mutation of the handle with id `i` shared between caller and pool. -/
def updateById (i : String) (f : WarmContainer → WarmContainer)
    (pool : List WarmContainer) : List WarmContainer :=
  pool.map fun x => if x.container_id = i then f x else x

/-- Model of `self._pools[runtime].remove(container)`: drop the first entry with the
handle's id (ids are unique in a pool). -/
def removeFirstById (i : String) : List WarmContainer → List WarmContainer
  | [] => []
  | x :: xs => if x.container_id = i then xs else x :: removeFirstById i xs

/-- Model of `WarmPoolManager.release`: if the handle says `should_replace`, remove it
from the pool and force-remove it in the engine (`_remove_container`; the
second component lists the ids whose engine force-remove was issued);
otherwise mark it WARM and leave it in the pool. -/
def release (container_ttl max_idle_time now : ℚ) (c : WarmContainer)
    (pool : List WarmContainer) : List WarmContainer × List String :=
  if c.should_replace container_ttl max_idle_time now then
    (removeFirstById c.container_id pool, [c.container_id])
  else
    (updateById c.container_id WarmContainer.mark_warm pool, [])

/-- Model of `WarmPoolManager.add`: mark the handle WARM and append it to the pool. -/
def add (c : WarmContainer) (pool : List WarmContainer) : List WarmContainer :=
  pool ++ [c.mark_warm]

end WarmPoolManager

/-! ### Basic facts about handle operations -/

@[simp] theorem WarmContainer.is_available_iff (c : WarmContainer) :
    c.is_available = true ↔ c.state = ContainerState.warm := by
  simp [WarmContainer.is_available]

@[simp] theorem WarmContainer.mark_busy_id (c : WarmContainer) (now : ℚ) :
    (c.mark_busy now).container_id = c.container_id := rfl

@[simp] theorem WarmContainer.mark_busy_state (c : WarmContainer) (now : ℚ) :
    (c.mark_busy now).state = ContainerState.busy := rfl

@[simp] theorem WarmContainer.mark_warm_id (c : WarmContainer) :
    c.mark_warm.container_id = c.container_id := rfl

@[simp] theorem WarmContainer.mark_warm_state (c : WarmContainer) :
    c.mark_warm.state = ContainerState.warm := rfl

@[simp] theorem WarmContainer.mark_resetting_id (c : WarmContainer) :
    c.mark_resetting.container_id = c.container_id := rfl

@[simp] theorem WarmContainer.mark_resetting_state (c : WarmContainer) :
    c.mark_resetting.state = ContainerState.resetting := rfl

@[simp] theorem WarmContainer.mark_terminating_id (c : WarmContainer) :
    c.mark_terminating.container_id = c.container_id := rfl

@[simp] theorem WarmContainer.record_execution_id (c : WarmContainer) (t : ℚ)
    (success : Bool) : (c.record_execution t success).container_id = c.container_id := by
  cases success <;> rfl

@[simp] theorem WarmContainer.record_execution_state (c : WarmContainer) (t : ℚ)
    (success : Bool) : (c.record_execution t success).state = c.state := by
  cases success <;> rfl

@[simp] theorem WarmContainer.record_execution_count (c : WarmContainer) (t : ℚ)
    (success : Bool) :
    (c.record_execution t success).execution_count = c.execution_count + 1 := by
  cases success <;> rfl

theorem WarmContainer.record_execution_failures_false (c : WarmContainer) (t : ℚ) :
    (c.record_execution t false).consecutive_failures = c.consecutive_failures + 1 := rfl

/-! ### Pool manager lemmas -/

namespace WarmPoolManager

theorem acquire_none_iff (now : ℚ) (pool : List WarmContainer) :
    (acquire now pool).1 = none ↔ ∀ c ∈ pool, c.state ≠ ContainerState.warm := by
  induction pool with
  | nil => simp [acquire]
  | cons c rest ih =>
    rcases hc : c.is_available with _ | _
    · have hcs : c.state ≠ ContainerState.warm := by
        intro h; rw [← WarmContainer.is_available_iff] at h; rw [hc] at h; exact Bool.false_ne_true h
      simp [acquire, hc, ih, hcs]
    · have hcs : c.state = ContainerState.warm := (WarmContainer.is_available_iff c).mp hc
      simp [acquire, hc, hcs]

theorem acquire_none_pool (now : ℚ) (pool : List WarmContainer)
    (h : (acquire now pool).1 = none) : (acquire now pool).2 = pool := by
  induction pool with
  | nil => simp [acquire]
  | cons c rest ih =>
    rcases hc : c.is_available with _ | _
    · rw [acquire] at h ⊢
      rw [hc] at h ⊢
      simp only [Bool.false_eq_true, if_false] at h ⊢
      rw [ih h]
    · rw [acquire] at h
      rw [hc] at h
      simp at h

theorem acquire_some_decomp (now : ℚ) (pool : List WarmContainer) (d : WarmContainer)
    (pool' : List WarmContainer) (h : acquire now pool = (some d, pool')) :
    ∃ l c r, pool = l ++ c :: r
      ∧ (∀ x ∈ l, x.state ≠ ContainerState.warm)
      ∧ c.state = ContainerState.warm
      ∧ d = c.mark_busy now
      ∧ pool' = l ++ d :: r := by
  induction pool generalizing pool' with
  | nil => simp [acquire] at h
  | cons c rest ih =>
    rcases hc : c.is_available with _ | _
    · rw [acquire] at h
      rw [hc] at h
      simp only [Bool.false_eq_true, if_false, Prod.mk.injEq] at h
      obtain ⟨h1, h2⟩ := h
      obtain ⟨l, c₀, r, hp, hl, hw, hd, hp'⟩ :=
        ih (acquire now rest).2 (by rw [← h1])
      refine ⟨c :: l, c₀, r, by rw [hp]; rfl, ?_, hw, hd, ?_⟩
      · intro x hx
        rcases List.mem_cons.mp hx with hx | hx
        · subst hx
          intro hxs
          rw [← WarmContainer.is_available_iff] at hxs
          rw [hc] at hxs
          exact Bool.false_ne_true hxs
        · exact hl x hx
      · rw [← h2, hp']
        rfl
    · rw [acquire] at h
      rw [hc] at h
      simp only [if_true, Prod.mk.injEq] at h
      obtain ⟨h1, h2⟩ := h
      have hd : d = c.mark_busy now := (Option.some_inj.mp h1).symm
      exact ⟨[], c, rest, rfl, by simp, (WarmContainer.is_available_iff c).mp hc,
        hd, by rw [← h2, hd]; rfl⟩

theorem acquire_ids (now : ℚ) (pool : List WarmContainer) :
    ((acquire now pool).2).map WarmContainer.container_id
      = pool.map WarmContainer.container_id := by
  induction pool with
  | nil => simp [acquire]
  | cons c rest ih =>
    rcases hc : c.is_available with _ | _
    · simp [acquire, hc, ih]
    · simp [acquire, hc]

theorem removeFirstById_not_mem (i : String) (pool : List WarmContainer)
    (hnodup : (pool.map WarmContainer.container_id).Nodup) :
    i ∉ (removeFirstById i pool).map WarmContainer.container_id := by
  induction pool with
  | nil => simp [removeFirstById]
  | cons x xs ih =>
    simp only [List.map_cons, List.nodup_cons] at hnodup
    by_cases hx : x.container_id = i
    · rw [removeFirstById, if_pos hx]
      rw [← hx]
      exact hnodup.1
    · rw [removeFirstById, if_neg hx]
      intro hmem
      rcases List.mem_map.mp hmem with ⟨y, hy, hyi⟩
      rcases List.mem_cons.mp hy with hy | hy
      · exact hx (by rw [hy] at hyi; exact hyi)
      · exact ih hnodup.2 (List.mem_map.mpr ⟨y, hy, hyi⟩)

theorem updateById_ids (i : String) (f : WarmContainer → WarmContainer)
    (pool : List WarmContainer)
    (hf : ∀ x : WarmContainer, (f x).container_id = x.container_id) :
    (updateById i f pool).map WarmContainer.container_id
      = pool.map WarmContainer.container_id := by
  rw [updateById, List.map_map]
  refine List.map_congr_left ?_
  intro x _
  by_cases hx : x.container_id = i
  · simp [hx, hf]
  · simp [hx]

theorem mem_updateById_of_mem (i : String) (f : WarmContainer → WarmContainer)
    (pool : List WarmContainer) (x : WarmContainer) (hx : x ∈ pool)
    (hxi : x.container_id = i) : f x ∈ updateById i f pool := by
  rw [updateById]
  exact List.mem_map.mpr ⟨x, hx, by rw [if_pos hxi]⟩

end WarmPoolManager

/-! ### Claim C3 -/

/-- What C3 states about a single pool: `acquire` returns `none` (leaving the
pool unchanged) exactly when no handle is WARM, and otherwise returns the
first WARM handle flipped to BUSY in the pool; a handle just acquired cannot
be handed out by a subsequent `acquire` on the resulting pool. -/
def AcquireSpec (now : ℚ) (pool : List WarmContainer) : Prop :=
  ((WarmPoolManager.acquire now pool).1 = none
      ↔ ∀ c ∈ pool, c.state ≠ ContainerState.warm)
  ∧ ((WarmPoolManager.acquire now pool).1 = none
      → (WarmPoolManager.acquire now pool).2 = pool)
  ∧ (∀ d pool', WarmPoolManager.acquire now pool = (some d, pool') →
      ∃ l c r, pool = l ++ c :: r
        ∧ (∀ x ∈ l, x.state ≠ ContainerState.warm)
        ∧ c.state = ContainerState.warm
        ∧ d = c.mark_busy now
        ∧ pool' = l ++ d :: r
        ∧ (∀ now₂ d₂ pool₂, WarmPoolManager.acquire now₂ pool' = (some d₂, pool₂) →
            d₂.container_id ≠ d.container_id))

/-- C3: for every pool state, `acquire` returns the first handle whose state
is WARM, flipping it to BUSY before returning, and returns none (pool
unchanged) when no handle is WARM; a handle returned by one `acquire` is not
returned by a subsequent `acquire` on the resulting pool (its state is BUSY
until a `release` marks it WARM again or it is removed). -/
theorem acquire_first_warm_exclusive (now : ℚ) (pool : List WarmContainer)
    (hnodup : (pool.map WarmContainer.container_id).Nodup) :
    AcquireSpec now pool := by
  refine ⟨WarmPoolManager.acquire_none_iff now pool,
    WarmPoolManager.acquire_none_pool now pool, ?_⟩
  intro d pool' h
  obtain ⟨l, c, r, hp, hl, hw, hd, hp'⟩ :=
    WarmPoolManager.acquire_some_decomp now pool d pool' h
  refine ⟨l, c, r, hp, hl, hw, hd, hp', ?_⟩
  have hids : pool'.map WarmContainer.container_id
      = pool.map WarmContainer.container_id := by
    rw [hp, hp', hd]
    simp
  have hnodup' : (pool'.map WarmContainer.container_id).Nodup := by
    rw [hids]; exact hnodup
  intro now₂ d₂ pool₂ h₂ heq
  obtain ⟨l₂, c₂, r₂, hq, _, hw₂, hd₂, _⟩ :=
    WarmPoolManager.acquire_some_decomp now₂ pool' d₂ pool₂ h₂
  have hc₂mem : c₂ ∈ pool' := by rw [hq]; simp
  have hdmem : d ∈ pool' := by rw [hp']; simp
  have hcd : c₂.container_id = d.container_id := by
    rw [← heq, hd₂]
    simp
  have : c₂ = d := List.inj_on_of_nodup_map hnodup' hc₂mem hdmem hcd
  rw [this, hd] at hw₂
  simp at hw₂

/-- A fresh WARM worker handle used to instantiate hypothesis-bearing
theorems at concrete inputs. -/
def wFresh : WarmContainer :=
  { container_id := "w1", runtime := "python:3.11", state := ContainerState.warm,
    created_at := 0, last_used_at := 0, last_health_check_at := 0 }

/-- Witness for C3 at the one-element pool `[wFresh]`. -/
theorem acquire_first_warm_exclusive_witness :
    ([wFresh].map WarmContainer.container_id).Nodup ∧ AcquireSpec 0 [wFresh] :=
  ⟨by simp, acquire_first_warm_exclusive 0 [wFresh] (by simp)⟩

/-! ### Claim C5 -/

/-- What C5 states about `release`: a handle with `should_replace` true is
removed from the pool and force-removed in the engine (never in the pool
after `release`); otherwise it is marked WARM and left in the pool; and
`should_replace` holds exactly per its documented formula. -/
def ReleaseSpec (ttl idle now : ℚ) (c : WarmContainer)
    (pool : List WarmContainer) : Prop :=
  (c.should_replace ttl idle now = true →
      c.container_id ∉
        ((WarmPoolManager.release ttl idle now c pool).1.map WarmContainer.container_id)
      ∧ (WarmPoolManager.release ttl idle now c pool).2 = [c.container_id])
  ∧ (c.should_replace ttl idle now = false →
      c.mark_warm ∈ (WarmPoolManager.release ttl idle now c pool).1
      ∧ (WarmPoolManager.release ttl idle now c pool).1.map WarmContainer.container_id
          = pool.map WarmContainer.container_id
      ∧ (WarmPoolManager.release ttl idle now c pool).2 = [])
  ∧ (c.should_replace ttl idle now = true ↔
      (now - c.created_at > ttl ∨ now - c.last_used_at > idle
        ∨ c.state = ContainerState.unhealthy
        ∨ (10 ≤ c.execution_count ∧ 3 ≤ c.consecutive_failures)))

/-- C5: `release` removes and engine-destroys a handle whose `should_replace`
is true, so such a handle is never in the pool after `release`; otherwise it
sets the handle's state to WARM and leaves it in the pool.  `should_replace`
is true iff age exceeds the TTL, or idle time exceeds the max-idle bound, or
the state is UNHEALTHY, or (execution_count ≥ 10 and
consecutive_failures ≥ 3). -/
theorem release_replace_spec (ttl idle now : ℚ) (c : WarmContainer)
    (pool : List WarmContainer) (hmem : c ∈ pool)
    (hnodup : (pool.map WarmContainer.container_id).Nodup) :
    ReleaseSpec ttl idle now c pool := by
  refine ⟨?_, ?_, ?_⟩
  · intro hrep
    rw [WarmPoolManager.release, if_pos hrep]
    exact ⟨WarmPoolManager.removeFirstById_not_mem _ pool hnodup, rfl⟩
  · intro hrep
    rw [WarmPoolManager.release, if_neg (by rw [hrep]; exact Bool.false_ne_true)]
    refine ⟨WarmPoolManager.mem_updateById_of_mem _ _ pool c hmem rfl, ?_, rfl⟩
    exact WarmPoolManager.updateById_ids _ _ pool (fun x => rfl)
  · rw [WarmContainer.should_replace, WarmContainer.age_seconds,
      WarmContainer.idle_seconds]
    split_ifs with h1 h2 h3 h4 <;> simp_all

/-- Witness for C5 at the one-element pool `[wFresh]`. -/
theorem release_replace_spec_witness :
    wFresh ∈ [wFresh] ∧ ([wFresh].map WarmContainer.container_id).Nodup
      ∧ ReleaseSpec 3600 300 1 wFresh [wFresh] :=
  ⟨by simp, by simp,
    release_replace_spec 3600 300 1 wFresh [wFresh] (by simp) (by simp)⟩

/-! ### Request / result models (`executor/models.py`) -/

structure ExecutionRequest where
  code : String
  runtime : Runtime
  entry_point : String := "main.py"
  timeout_ms : ℤ := 30000
  memory_mb : ℤ := 256
  cpu_cores : ℚ := 1 / 2
  execution_id : String
deriving DecidableEq, Repr

/-- Model of `ExecutionRequest.__post_init__`: validation run at construction time, on
the request value alone, before any worker or provider is touched.  A
returned `.error` models the raised `ValueError`. -/
def ExecutionRequest.post_init (r : ExecutionRequest) : Except String Unit :=
  if r.code = "" then .error "code cannot be empty"
  else if r.timeout_ms ≤ 0 then .error "timeout_ms must be positive"
  else if r.memory_mb ≤ 0 then .error "memory_mb must be positive"
  else if r.cpu_cores ≤ 0 then .error "cpu_cores must be positive"
  else .ok ()

structure ExecutionResult where
  success : Bool
  stdout : String
  stderr : String
  exit_code : ℤ
  execution_time_ms : ℚ
  cold_start : Bool
  provider : ExecutorProvider
  queue_time_ms : ℚ := 0
  container_id : Option String := none
  memory_used_mb : Option ℚ := none
  execution_id : Option String := none
deriving DecidableEq, Repr

structure ExecutorMetrics where
  provider : ExecutorProvider
  total_executions : ℕ := 0
  successful_executions : ℕ := 0
  failed_executions : ℕ := 0
  timeout_executions : ℕ := 0
  avg_execution_time_ms : ℚ := 0
  min_execution_time_ms : ℚ := 0
  max_execution_time_ms : ℚ := 0
  p50_execution_time_ms : ℚ := 0
  p95_execution_time_ms : ℚ := 0
  p99_execution_time_ms : ℚ := 0
  cold_start_count : ℕ := 0
  warm_start_count : ℕ := 0
  pool_hits : ℕ := 0
  pool_misses : ℕ := 0
  first_execution_at : Option ℚ := none
  last_execution_at : Option ℚ := none
deriving DecidableEq, Repr

/-! ### Local Docker provider (`executor/providers/local_docker.py`) -/

/-- The provider's metric state: the `ExecutorMetrics` record plus the
`_execution_times` sample list (bounded to the last 1000 samples). -/
structure ProviderState where
  metrics : ExecutorMetrics
  execution_times : List ℚ
deriving DecidableEq, Repr

/-- Stable ascending insertion, modelling Python `sorted`. -/
def insertSorted (x : ℚ) : List ℚ → List ℚ
  | [] => [x]
  | y :: ys => if y ≤ x then y :: insertSorted x ys else x :: y :: ys

def sortTimes (l : List ℚ) : List ℚ := l.foldr insertSorted []

def listSum (l : List ℚ) : ℚ := l.foldl (· + ·) 0

def listMin : List ℚ → ℚ
  | [] => 0
  | x :: xs => xs.foldl min x

def listMax : List ℚ → ℚ
  | [] => 0
  | x :: xs => xs.foldl max x

/-- Model of `LocalDockerExecutor._update_metrics`.  Python float timing statistics are
modelled with exact rationals (the `int(n * 0.95)` / `int(n * 0.99)`
percentile indices are modelled as exact natural-number products, ignoring
binary float rounding of the literals 0.95 / 0.99). -/
def update_metrics (now execution_time_ms : ℚ) (success : Bool)
    (s : ProviderState) : ProviderState :=
  let m := s.metrics
  let m := { m with total_executions := m.total_executions + 1 }
  let m :=
    if success then
      { m with successful_executions := m.successful_executions + 1 }
    else
      { m with failed_executions := m.failed_executions + 1 }
  let times := s.execution_times ++ [execution_time_ms]
  let times := if times.length > 1000 then times.drop (times.length - 1000) else times
  -- `if self._execution_times:` — `times` is non-empty here
  let sorted := sortTimes times
  let n := sorted.length
  let m := { m with
    avg_execution_time_ms := listSum times / (times.length : ℚ)
    min_execution_time_ms := listMin times
    max_execution_time_ms := listMax times
    p50_execution_time_ms := sorted.getD (n / 2) 0
    p95_execution_time_ms := sorted.getD (n * 95 / 100) 0
    p99_execution_time_ms := sorted.getD (n * 99 / 100) 0 }
  let m := { m with
    first_execution_at := some (m.first_execution_at.getD now)
    last_execution_at := some now }
  { metrics := m, execution_times := times }

/-- Outcome of `_execute_in_container` as the environment (container engine)
determines it: normal completion with an exit code and captured output,
deadline expiry (`asyncio.TimeoutError`), or some other raised error. -/
inductive ExecOutcome where
  | completed (exit_code : ℤ) (stdout stderr : String)
  | timedOut
  | raised (msg : String)
deriving DecidableEq, Repr

/-- One call's environment: the wall-clock instants the code reads, the
elapsed time it computes, and the outcomes of the engine interactions
(cold-start creation, in-container execution, post-execution reset). -/
structure ExecEnv where
  now_acquire : ℚ
  now_finish : ℚ
  now_release : ℚ
  elapsed_ms : ℚ
  create_result : Except String WarmContainer
  exec_outcome : ExecOutcome
  reset_failure : Option String
deriving Repr

/-- What `execute` hands its caller: a returned `ExecutionResult`, or a
raised `ExecutionTimeoutError` (the only exception that escapes). -/
inductive ExecuteOutcome where
  | result (r : ExecutionResult)
  | timeout_raised (timeout_ms : ℤ) (execution_id : String)
deriving DecidableEq, Repr

/-- Provider-side state threaded through `execute`: the runtime's pool, the
metric state, the ids force-removed in the engine, and the ids whose user
processes were killed (`_kill_container_processes`). -/
structure ExecutorState where
  pool : List WarmContainer
  prov : ProviderState
  destroyed : List String
  killed : List String
deriving Repr

structure LocalDockerConfig where
  container_ttl : ℚ := 3600
  max_idle_time : ℚ := 300
deriving Repr

/-- The `except Exception` branch of `execute`: a failure is returned as a
normal result with `success=False`, empty stdout, the error message as
stderr, exit code −1 and the attempt's cold-start flag. -/
def failure_result (e : String) (elapsed : ℚ) (cold : Bool)
    (req : ExecutionRequest) : ExecutionResult :=
  { success := false, stdout := "", stderr := e, exit_code := -1,
    execution_time_ms := elapsed, cold_start := cold,
    provider := ExecutorProvider.local_docker,
    execution_id := some req.execution_id }

/-- The `finally` block of `execute`: `_reset_container` (which first flips
the handle to RESETTING and then runs cleanup commands that may raise),
then `add` (cold-start path) or `release` (warm path); any exception from
this block is caught and only logged. -/
def finally_reset_and_release (cfg : LocalDockerConfig) (env : ExecEnv)
    (cold : Bool) (c : WarmContainer) (s : ExecutorState) : ExecutorState :=
  let c₁ := c.mark_resetting
  let s₁ :=
    if cold then s
    else { s with
      pool := WarmPoolManager.updateById c.container_id (fun _ => c₁) s.pool }
  match env.reset_failure with
  | some _ => s₁
  | none =>
    if cold then
      { s₁ with pool := WarmPoolManager.add c₁ s₁.pool }
    else
      let rel := WarmPoolManager.release cfg.container_ttl cfg.max_idle_time
        env.now_release c₁ s₁.pool
      { s₁ with pool := rel.1, destroyed := s₁.destroyed ++ rel.2 }

/-- The body of `execute` once a worker handle is in hand (`cold` says
whether it was cold-created): run the code, update handle and provider
metrics per the outcome, then go through the `finally` block. -/
def run_acquired (cfg : LocalDockerConfig) (env : ExecEnv)
    (req : ExecutionRequest) (cold : Bool) (c : WarmContainer)
    (s : ExecutorState) : ExecuteOutcome × ExecutorState :=
  match env.exec_outcome with
  | .completed exit_code out err =>
    let success : Bool := exit_code = 0
    let prov₁ := update_metrics env.now_finish env.elapsed_ms success s.prov
    let c₁ := c.record_execution env.elapsed_ms success
    let s₁ := { s with
      prov := prov₁
      pool :=
        if cold then s.pool
        else WarmPoolManager.updateById c.container_id (fun _ => c₁) s.pool }
    let res : ExecutionResult :=
      { success := success, stdout := out, stderr := err, exit_code := exit_code,
        execution_time_ms := env.elapsed_ms, cold_start := cold,
        provider := ExecutorProvider.local_docker,
        container_id := some c.container_id,
        execution_id := some req.execution_id }
    (.result res, finally_reset_and_release cfg env cold c₁ s₁)
  | .timedOut =>
    let prov₁ := { s.prov with metrics := { s.prov.metrics with
      timeout_executions := s.prov.metrics.timeout_executions + 1 } }
    let c₁ := c.record_execution (req.timeout_ms : ℚ) false
    let s₁ := { s with
      prov := prov₁
      pool :=
        if cold then s.pool
        else WarmPoolManager.updateById c.container_id (fun _ => c₁) s.pool
      killed := s.killed ++ [c.container_id] }
    (.timeout_raised req.timeout_ms req.execution_id,
      finally_reset_and_release cfg env cold c₁ s₁)
  | .raised e =>
    let c₁ := c.record_execution env.elapsed_ms false
    let prov₁ := { s.prov with metrics := { s.prov.metrics with
      failed_executions := s.prov.metrics.failed_executions + 1 } }
    let s₁ := { s with
      prov := prov₁
      pool :=
        if cold then s.pool
        else WarmPoolManager.updateById c.container_id (fun _ => c₁) s.pool }
    (.result (failure_result e env.elapsed_ms cold req),
      finally_reset_and_release cfg env cold c₁ s₁)

/-- Model of `LocalDockerExecutor.execute` over the abstracted engine environment:
acquire from the pool (warm hit) or cold-create, run, account, and always
reset-and-release via the `finally` block. -/
def execute (cfg : LocalDockerConfig) (env : ExecEnv) (req : ExecutionRequest)
    (s : ExecutorState) : ExecuteOutcome × ExecutorState :=
  match WarmPoolManager.acquire env.now_acquire s.pool with
  | (some c, pool₁) =>
    let s₁ := { s with
      pool := pool₁
      prov := { s.prov with metrics := { s.prov.metrics with
        warm_start_count := s.prov.metrics.warm_start_count + 1
        pool_hits := s.prov.metrics.pool_hits + 1 } } }
    run_acquired cfg env req false c s₁
  | (none, pool₁) =>
    let s₁ := { s with
      pool := pool₁
      prov := { s.prov with metrics := { s.prov.metrics with
        cold_start_count := s.prov.metrics.cold_start_count + 1
        pool_misses := s.prov.metrics.pool_misses + 1 } } }
    match env.create_result with
    | .error e =>
      -- `_create_container` raised: caught by the outer handler; the local
      -- `container` is still None, so the `finally` block does nothing
      let s₂ := { s₁ with prov := { s₁.prov with metrics := { s₁.prov.metrics with
        failed_executions := s₁.prov.metrics.failed_executions + 1 } } }
      (.result (failure_result e env.elapsed_ms true req), s₂)
    | .ok c => run_acquired cfg env req true c s₁

/-! ### Claim C9 -/

/-- C9: constructing an Execution Request fails with a validation error iff
the code is empty, or `timeout_ms ≤ 0`, or `memory_mb ≤ 0`, or
`cpu_cores ≤ 0`; with all four constraints satisfied construction does not
raise.  The check (`__post_init__`) runs on the request value alone, before
any worker or provider is touched. -/
theorem request_validation_spec (r : ExecutionRequest) :
    ((∃ e, r.post_init = Except.error e) ↔
      (r.code = "" ∨ r.timeout_ms ≤ 0 ∨ r.memory_mb ≤ 0 ∨ r.cpu_cores ≤ 0))
    ∧ (r.post_init = Except.ok () ↔
      ¬ (r.code = "" ∨ r.timeout_ms ≤ 0 ∨ r.memory_mb ≤ 0 ∨ r.cpu_cores ≤ 0)) := by
  rw [ExecutionRequest.post_init]
  split_ifs with h1 h2 h3 h4 <;> simp_all

/-! ### Classifying one `execute` call -/

inductive CallClass where
  | normal
  | timeout
  | caught
deriving DecidableEq, Repr

def classifyExec : ExecOutcome → CallClass
  | .completed _ _ _ => .normal
  | .timedOut => .timeout
  | .raised _ => .caught

/-- How a single `execute` call ends, read off the environment and the pool
state: normal completion, deadline expiry, or an error caught by the outer
`except Exception` handler. -/
def classify (env : ExecEnv) (s : ExecutorState) : CallClass :=
  match (WarmPoolManager.acquire env.now_acquire s.pool).1 with
  | some _ => classifyExec env.exec_outcome
  | none =>
    match env.create_result with
    | .error _ => CallClass.caught
    | .ok _ => classifyExec env.exec_outcome

theorem finally_prov (cfg : LocalDockerConfig) (env : ExecEnv) (cold : Bool)
    (c : WarmContainer) (s : ExecutorState) :
    (finally_reset_and_release cfg env cold c s).prov = s.prov := by
  cases hr : env.reset_failure <;> cases cold <;>
    simp [finally_reset_and_release, hr]

theorem finally_killed (cfg : LocalDockerConfig) (env : ExecEnv) (cold : Bool)
    (c : WarmContainer) (s : ExecutorState) :
    (finally_reset_and_release cfg env cold c s).killed = s.killed := by
  cases hr : env.reset_failure <;> cases cold <;>
    simp [finally_reset_and_release, hr]

theorem update_metrics_counters (now t : ℚ) (success : Bool) (p : ProviderState) :
    (update_metrics now t success p).metrics.total_executions
        = p.metrics.total_executions + 1
    ∧ (update_metrics now t success p).metrics.successful_executions
        + (update_metrics now t success p).metrics.failed_executions
        = p.metrics.successful_executions + p.metrics.failed_executions + 1
    ∧ (update_metrics now t success p).metrics.timeout_executions
        = p.metrics.timeout_executions
    ∧ (update_metrics now t success p).metrics.cold_start_count
        = p.metrics.cold_start_count
    ∧ (update_metrics now t success p).metrics.warm_start_count
        = p.metrics.warm_start_count := by
  cases success <;> simp [update_metrics] <;> omega

/-- Per-call metric accounting of `execute`: every call counts exactly one
cold or warm start; a normally completing call adds one to
`total_executions` and one to successful-or-failed; a timed-out call adds
one only to `timeout_executions`; a caught internal failure adds one only
to `failed_executions`. -/
theorem execute_metrics_delta (cfg : LocalDockerConfig) (env : ExecEnv)
    (req : ExecutionRequest) (s : ExecutorState) :
    ((execute cfg env req s).2.prov.metrics.cold_start_count
        + (execute cfg env req s).2.prov.metrics.warm_start_count
      = s.prov.metrics.cold_start_count + s.prov.metrics.warm_start_count + 1)
    ∧ (classify env s = CallClass.normal →
        (execute cfg env req s).2.prov.metrics.total_executions
          = s.prov.metrics.total_executions + 1
        ∧ (execute cfg env req s).2.prov.metrics.successful_executions
            + (execute cfg env req s).2.prov.metrics.failed_executions
          = s.prov.metrics.successful_executions
            + s.prov.metrics.failed_executions + 1
        ∧ (execute cfg env req s).2.prov.metrics.timeout_executions
          = s.prov.metrics.timeout_executions)
    ∧ (classify env s = CallClass.timeout →
        (execute cfg env req s).2.prov.metrics.total_executions
          = s.prov.metrics.total_executions
        ∧ (execute cfg env req s).2.prov.metrics.timeout_executions
          = s.prov.metrics.timeout_executions + 1
        ∧ (execute cfg env req s).2.prov.metrics.successful_executions
          = s.prov.metrics.successful_executions
        ∧ (execute cfg env req s).2.prov.metrics.failed_executions
          = s.prov.metrics.failed_executions)
    ∧ (classify env s = CallClass.caught →
        (execute cfg env req s).2.prov.metrics.total_executions
          = s.prov.metrics.total_executions
        ∧ (execute cfg env req s).2.prov.metrics.failed_executions
          = s.prov.metrics.failed_executions + 1
        ∧ (execute cfg env req s).2.prov.metrics.timeout_executions
          = s.prov.metrics.timeout_executions
        ∧ (execute cfg env req s).2.prov.metrics.successful_executions
          = s.prov.metrics.successful_executions) := by
  rcases hacq : WarmPoolManager.acquire env.now_acquire s.pool with ⟨o, pool₁⟩
  cases o with
  | some c =>
    cases hex : env.exec_outcome with
    | completed ec out err =>
      have hcls : classify env s = CallClass.normal := by
        simp [classify, hacq, hex, classifyExec]
      have h := update_metrics_counters env.now_finish env.elapsed_ms
        (decide (ec = 0))
        { s.prov with metrics := { s.prov.metrics with
            warm_start_count := s.prov.metrics.warm_start_count + 1
            pool_hits := s.prov.metrics.pool_hits + 1 } }
      simp [execute, hacq, run_acquired, hex, hcls, finally_prov] at h ⊢
      omega
    | timedOut =>
      have hcls : classify env s = CallClass.timeout := by
        simp [classify, hacq, hex, classifyExec]
      simp [execute, hacq, run_acquired, hex, hcls, finally_prov]
      omega
    | raised e =>
      have hcls : classify env s = CallClass.caught := by
        simp [classify, hacq, hex, classifyExec]
      simp [execute, hacq, run_acquired, hex, hcls, finally_prov]
      omega
  | none =>
    cases hcr : env.create_result with
    | error e =>
      have hcls : classify env s = CallClass.caught := by
        simp [classify, hacq, hcr]
      simp [execute, hacq, hcr, hcls]
      omega
    | ok c =>
      cases hex : env.exec_outcome with
      | completed ec out err =>
        have hcls : classify env s = CallClass.normal := by
          simp [classify, hacq, hcr, hex, classifyExec]
        have h := update_metrics_counters env.now_finish env.elapsed_ms
          (decide (ec = 0))
          { s.prov with metrics := { s.prov.metrics with
              cold_start_count := s.prov.metrics.cold_start_count + 1
              pool_misses := s.prov.metrics.pool_misses + 1 } }
        simp [execute, hacq, hcr, run_acquired, hex, hcls, finally_prov] at h ⊢
        omega
      | timedOut =>
        have hcls : classify env s = CallClass.timeout := by
          simp [classify, hacq, hcr, hex, classifyExec]
        simp [execute, hacq, hcr, run_acquired, hex, hcls, finally_prov]
        omega
      | raised e =>
        have hcls : classify env s = CallClass.caught := by
          simp [classify, hacq, hcr, hex, classifyExec]
        simp [execute, hacq, hcr, run_acquired, hex, hcls, finally_prov]
        omega

/-! ### Traces of `execute` calls against one provider -/

def runTrace (cfg : LocalDockerConfig) :
    List (ExecEnv × ExecutionRequest) → ExecutorState → ExecutorState
  | [], s => s
  | (env, req) :: tr, s => runTrace cfg tr (execute cfg env req s).2

/-- Number of calls of a trace that do not complete normally (deadline expiry
or an error caught by the outer handler). -/
def abnormalCount (cfg : LocalDockerConfig) :
    List (ExecEnv × ExecutionRequest) → ExecutorState → ℕ
  | [], _ => 0
  | (env, req) :: tr, s =>
    (if classify env s = CallClass.normal then 0 else 1)
      + abnormalCount cfg tr (execute cfg env req s).2

theorem trace_counter_invariant (cfg : LocalDockerConfig)
    (tr : List (ExecEnv × ExecutionRequest)) : ∀ s : ExecutorState,
    ((runTrace cfg tr s).prov.metrics.successful_executions
      + (runTrace cfg tr s).prov.metrics.failed_executions
      + (runTrace cfg tr s).prov.metrics.timeout_executions)
      + s.prov.metrics.total_executions
    = (s.prov.metrics.successful_executions + s.prov.metrics.failed_executions
      + s.prov.metrics.timeout_executions)
      + (runTrace cfg tr s).prov.metrics.total_executions
      + abnormalCount cfg tr s := by
  induction tr with
  | nil => intro s; simp [runTrace, abnormalCount]
  | cons p tr ih =>
    rcases p with ⟨env, req⟩
    intro s
    have hrun : runTrace cfg ((env, req) :: tr) s
        = runTrace cfg tr (execute cfg env req s).2 := rfl
    have habn : abnormalCount cfg ((env, req) :: tr) s
        = (if classify env s = CallClass.normal then 0 else 1)
          + abnormalCount cfg tr (execute cfg env req s).2 := rfl
    have hδ := execute_metrics_delta cfg env req s
    have ih' := ih (execute cfg env req s).2
    rw [hrun, habn]
    rcases hcls : classify env s with _ | _ | _
    · obtain ⟨h1, h2, h3⟩ := hδ.2.1 hcls
      simp
      omega
    · obtain ⟨h1, h2, h3, h4⟩ := hδ.2.2.1 hcls
      simp
      omega
    · obtain ⟨h1, h2, h3, h4⟩ := hδ.2.2.2 hcls
      simp
      omega

theorem trace_start_invariant (cfg : LocalDockerConfig)
    (tr : List (ExecEnv × ExecutionRequest)) : ∀ s : ExecutorState,
    ((runTrace cfg tr s).prov.metrics.cold_start_count
      + (runTrace cfg tr s).prov.metrics.warm_start_count)
      + s.prov.metrics.total_executions
    = (s.prov.metrics.cold_start_count + s.prov.metrics.warm_start_count)
      + (runTrace cfg tr s).prov.metrics.total_executions
      + abnormalCount cfg tr s := by
  induction tr with
  | nil => intro s; simp [runTrace, abnormalCount]
  | cons p tr ih =>
    rcases p with ⟨env, req⟩
    intro s
    have hrun : runTrace cfg ((env, req) :: tr) s
        = runTrace cfg tr (execute cfg env req s).2 := rfl
    have habn : abnormalCount cfg ((env, req) :: tr) s
        = (if classify env s = CallClass.normal then 0 else 1)
          + abnormalCount cfg tr (execute cfg env req s).2 := rfl
    have hδ := execute_metrics_delta cfg env req s
    have hcw := hδ.1
    have ih' := ih (execute cfg env req s).2
    rw [hrun, habn]
    rcases hcls : classify env s with _ | _ | _
    · obtain ⟨h1, h2, h3⟩ := hδ.2.1 hcls
      simp
      omega
    · obtain ⟨h1, h2, h3, h4⟩ := hδ.2.2.1 hcls
      simp
      omega
    · obtain ⟨h1, h2, h3, h4⟩ := hδ.2.2.2 hcls
      simp
      omega

/-- The provider's state at construction: empty pool, zeroed metrics. -/
def initState : ExecutorState :=
  { pool := []
    prov := { metrics := { provider := ExecutorProvider.local_docker }
              execution_times := [] }
    destroyed := []
    killed := [] }

/-! ### Claims C4 and C8 -/

/-- C4 (amended): across every sequence of `execute` calls from a fresh
provider, `successful + failed + timeout = total + (number of calls that
timed out or failed with a caught internal error)`.  The claimed identity
`successful + failed + timeout = total` therefore holds only while no call
has timed out or failed internally: the timeout handler and the catch-all
handler bump their counters without bumping `total_executions`. -/
theorem metrics_sum_amended (cfg : LocalDockerConfig)
    (tr : List (ExecEnv × ExecutionRequest)) :
    (runTrace cfg tr initState).prov.metrics.successful_executions
      + (runTrace cfg tr initState).prov.metrics.failed_executions
      + (runTrace cfg tr initState).prov.metrics.timeout_executions
    = (runTrace cfg tr initState).prov.metrics.total_executions
      + abnormalCount cfg tr initState := by
  have h := trace_counter_invariant cfg tr initState
  have h0t : initState.prov.metrics.total_executions = 0 := rfl
  have h0s : initState.prov.metrics.successful_executions = 0 := rfl
  have h0f : initState.prov.metrics.failed_executions = 0 := rfl
  have h0to : initState.prov.metrics.timeout_executions = 0 := rfl
  omega

/-- C8 (amended): across every sequence of `execute` calls from a fresh
provider, `cold_start_count + warm_start_count = total + (number of calls
that timed out or failed with a caught internal error)`: every call counts
exactly one cold or warm start, but only normally completing calls are
counted in `total_executions`. -/
theorem start_count_sum_amended (cfg : LocalDockerConfig)
    (tr : List (ExecEnv × ExecutionRequest)) :
    (runTrace cfg tr initState).prov.metrics.cold_start_count
      + (runTrace cfg tr initState).prov.metrics.warm_start_count
    = (runTrace cfg tr initState).prov.metrics.total_executions
      + abnormalCount cfg tr initState := by
  have h := trace_start_invariant cfg tr initState
  have h0t : initState.prov.metrics.total_executions = 0 := rfl
  have h0c : initState.prov.metrics.cold_start_count = 0 := rfl
  have h0w : initState.prov.metrics.warm_start_count = 0 := rfl
  omega

/-- Default executor configuration (TTL 3600 s, max idle 300 s). -/
def cfgCex : LocalDockerConfig := {}

def reqCex : ExecutionRequest :=
  { code := "import time; time.sleep(100)", runtime := Runtime.python311,
    timeout_ms := 100, execution_id := "e1" }

/-- Environment of a cold-start execution whose deadline expires (creation
succeeds, the in-container run times out, the reset succeeds). -/
def envTimeoutCex : ExecEnv :=
  { now_acquire := 0, now_finish := 0, now_release := 1, elapsed_ms := 100,
    create_result := Except.ok wFresh,
    exec_outcome := ExecOutcome.timedOut,
    reset_failure := none }

/-- C4 counterexample: a single execution that times out leaves
`timeout_executions = 1` but `total_executions = 0`, so
`successful + failed + timeout ≠ total`. -/
theorem metrics_sum_counterexample :
    ¬ ((runTrace cfgCex [(envTimeoutCex, reqCex)] initState).prov.metrics.successful_executions
        + (runTrace cfgCex [(envTimeoutCex, reqCex)] initState).prov.metrics.failed_executions
        + (runTrace cfgCex [(envTimeoutCex, reqCex)] initState).prov.metrics.timeout_executions
      = (runTrace cfgCex [(envTimeoutCex, reqCex)] initState).prov.metrics.total_executions) := by
  have hδ := execute_metrics_delta cfgCex envTimeoutCex reqCex initState
  have hcls : classify envTimeoutCex initState = CallClass.timeout := rfl
  obtain ⟨h1, h2, h3, h4⟩ := hδ.2.2.1 hcls
  have hrun : runTrace cfgCex [(envTimeoutCex, reqCex)] initState
      = (execute cfgCex envTimeoutCex reqCex initState).2 := rfl
  rw [hrun]
  have h0t : initState.prov.metrics.total_executions = 0 := rfl
  have h0s : initState.prov.metrics.successful_executions = 0 := rfl
  have h0f : initState.prov.metrics.failed_executions = 0 := rfl
  have h0to : initState.prov.metrics.timeout_executions = 0 := rfl
  omega

/-- C8 counterexample: a single execution that times out leaves
`cold_start_count + warm_start_count = 1` but `total_executions = 0`. -/
theorem start_count_sum_counterexample :
    ¬ ((runTrace cfgCex [(envTimeoutCex, reqCex)] initState).prov.metrics.cold_start_count
        + (runTrace cfgCex [(envTimeoutCex, reqCex)] initState).prov.metrics.warm_start_count
      = (runTrace cfgCex [(envTimeoutCex, reqCex)] initState).prov.metrics.total_executions) := by
  have hδ := execute_metrics_delta cfgCex envTimeoutCex reqCex initState
  have hcls : classify envTimeoutCex initState = CallClass.timeout := rfl
  obtain ⟨h1, h2, h3, h4⟩ := hδ.2.2.1 hcls
  have hcw := hδ.1
  have hrun : runTrace cfgCex [(envTimeoutCex, reqCex)] initState
      = (execute cfgCex envTimeoutCex reqCex initState).2 := rfl
  rw [hrun]
  have h0t : initState.prov.metrics.total_executions = 0 := rfl
  have h0c : initState.prov.metrics.cold_start_count = 0 := rfl
  have h0w : initState.prov.metrics.warm_start_count = 0 := rfl
  omega

/-! ### Unfolding lemmas for `execute` -/

theorem execute_warm_eq (cfg : LocalDockerConfig) (env : ExecEnv)
    (req : ExecutionRequest) (s : ExecutorState) (c : WarmContainer)
    (pool₁ : List WarmContainer)
    (hacq : WarmPoolManager.acquire env.now_acquire s.pool = (some c, pool₁)) :
    execute cfg env req s = run_acquired cfg env req false c
      { s with
        pool := pool₁
        prov := { s.prov with metrics := { s.prov.metrics with
          warm_start_count := s.prov.metrics.warm_start_count + 1
          pool_hits := s.prov.metrics.pool_hits + 1 } } } := by
  rw [execute, hacq]

theorem execute_cold_ok_eq (cfg : LocalDockerConfig) (env : ExecEnv)
    (req : ExecutionRequest) (s : ExecutorState) (c : WarmContainer)
    (pool₁ : List WarmContainer)
    (hacq : WarmPoolManager.acquire env.now_acquire s.pool = (none, pool₁))
    (hcr : env.create_result = Except.ok c) :
    execute cfg env req s = run_acquired cfg env req true c
      { s with
        pool := pool₁
        prov := { s.prov with metrics := { s.prov.metrics with
          cold_start_count := s.prov.metrics.cold_start_count + 1
          pool_misses := s.prov.metrics.pool_misses + 1 } } } := by
  rw [execute, hacq, hcr]

theorem execute_cold_fail_eq (cfg : LocalDockerConfig) (env : ExecEnv)
    (req : ExecutionRequest) (s : ExecutorState) (e : String)
    (pool₁ : List WarmContainer)
    (hacq : WarmPoolManager.acquire env.now_acquire s.pool = (none, pool₁))
    (hcr : env.create_result = Except.error e) :
    execute cfg env req s
      = (ExecuteOutcome.result (failure_result e env.elapsed_ms true req),
         { s with
           pool := pool₁
           prov := { s.prov with metrics := { s.prov.metrics with
             cold_start_count := s.prov.metrics.cold_start_count + 1
             pool_misses := s.prov.metrics.pool_misses + 1
             failed_executions := s.prov.metrics.failed_executions + 1 } } }) := by
  rw [execute, hacq, hcr]

theorem finally_reset_fail_eq (cfg : LocalDockerConfig) (env : ExecEnv)
    (c : WarmContainer) (s : ExecutorState) (e : String)
    (hreset : env.reset_failure = some e) :
    finally_reset_and_release cfg env false c s
      = { s with
          pool := WarmPoolManager.updateById c.container_id
            (fun _ => c.mark_resetting) s.pool } := by
  simp [finally_reset_and_release, hreset]

theorem finally_reset_ok_warm_eq (cfg : LocalDockerConfig) (env : ExecEnv)
    (c : WarmContainer) (s : ExecutorState)
    (hreset : env.reset_failure = none) :
    finally_reset_and_release cfg env false c s
      = { s with
          pool := (WarmPoolManager.release cfg.container_ttl cfg.max_idle_time
            env.now_release c.mark_resetting
            (WarmPoolManager.updateById c.container_id
              (fun _ => c.mark_resetting) s.pool)).1
          destroyed := s.destroyed
            ++ (WarmPoolManager.release cfg.container_ttl cfg.max_idle_time
              env.now_release c.mark_resetting
              (WarmPoolManager.updateById c.container_id
                (fun _ => c.mark_resetting) s.pool)).2 } := by
  simp [finally_reset_and_release, hreset]

/-! ### Further pool update lemmas -/

namespace WarmPoolManager

theorem updateById_ids_of_matching (i : String) (f : WarmContainer → WarmContainer)
    (pool : List WarmContainer)
    (hf : ∀ x : WarmContainer, x.container_id = i → (f x).container_id = i) :
    (updateById i f pool).map WarmContainer.container_id
      = pool.map WarmContainer.container_id := by
  rw [updateById, List.map_map]
  refine List.map_congr_left ?_
  intro x _
  by_cases hx : x.container_id = i
  · simp [hx, hf x hx]
  · simp [hx]

theorem eq_of_mem_updateById_const (i : String) (y : WarmContainer)
    (pool : List WarmContainer) (x : WarmContainer)
    (hx : x ∈ updateById i (fun _ => y) pool)
    (hxi : x.container_id = i) : x = y := by
  rcases List.mem_map.mp hx with ⟨z, hz, hzx⟩
  by_cases hzi : z.container_id = i
  · rw [if_pos hzi] at hzx
    exact hzx.symm
  · rw [if_neg hzi] at hzx
    rw [← hzx] at hxi
    exact absurd hxi hzi

end WarmPoolManager

/-! ### Claim C1 -/

/-- What actually happens on a failed reset of a pool-acquired worker:
nothing is destroyed in the engine, the pool's membership (by id) is
unchanged — the worker is neither removed nor re-added — and the worker's
pool entry is left in state RESETTING (in particular it is never returned
to WARM). -/
def ResetFailureSpec (cfg : LocalDockerConfig) (env : ExecEnv)
    (req : ExecutionRequest) (s : ExecutorState) (c : WarmContainer) : Prop :=
  (execute cfg env req s).2.destroyed = s.destroyed
  ∧ (execute cfg env req s).2.pool.map WarmContainer.container_id
      = s.pool.map WarmContainer.container_id
  ∧ (∀ x ∈ (execute cfg env req s).2.pool,
      x.container_id = c.container_id → x.state = ContainerState.resetting)

theorem reset_failure_effects (cfg : LocalDockerConfig) (env : ExecEnv)
    (req : ExecutionRequest) (s : ExecutorState) (c : WarmContainer)
    (pool₁ : List WarmContainer) (e : String)
    (hacq : WarmPoolManager.acquire env.now_acquire s.pool = (some c, pool₁))
    (hreset : env.reset_failure = some e) :
    ResetFailureSpec cfg env req s c := by
  have hids₁ : pool₁.map WarmContainer.container_id
      = s.pool.map WarmContainer.container_id := by
    have h := WarmPoolManager.acquire_ids env.now_acquire s.pool
    rw [hacq] at h
    exact h
  rw [ResetFailureSpec, execute_warm_eq cfg env req s c pool₁ hacq]
  cases hex : env.exec_outcome with
  | completed ec out err =>
    simp only [run_acquired, hex]
    rw [finally_reset_fail_eq cfg env _ _ e hreset]
    refine ⟨rfl, ?_, ?_⟩
    · rw [WarmPoolManager.updateById_ids_of_matching _ _ _ (by intro x hx; simp)]
      simp only [Bool.false_eq_true, if_false]
      rw [WarmPoolManager.updateById_ids_of_matching _ _ _ (by intro x hx; simp),
        hids₁]
    · intro x hx hxi
      have hx' := WarmPoolManager.eq_of_mem_updateById_const _ _ _ x hx (by simpa using hxi)
      rw [hx']
      simp
  | timedOut =>
    simp only [run_acquired, hex]
    rw [finally_reset_fail_eq cfg env _ _ e hreset]
    refine ⟨rfl, ?_, ?_⟩
    · rw [WarmPoolManager.updateById_ids_of_matching _ _ _ (by intro x hx; simp)]
      simp only [Bool.false_eq_true, if_false]
      rw [WarmPoolManager.updateById_ids_of_matching _ _ _ (by intro x hx; simp),
        hids₁]
    · intro x hx hxi
      have hx' := WarmPoolManager.eq_of_mem_updateById_const _ _ _ x hx (by simpa using hxi)
      rw [hx']
      simp
  | raised e₂ =>
    simp only [run_acquired, hex]
    rw [finally_reset_fail_eq cfg env _ _ e hreset]
    refine ⟨rfl, ?_, ?_⟩
    · rw [WarmPoolManager.updateById_ids_of_matching _ _ _ (by intro x hx; simp)]
      simp only [Bool.false_eq_true, if_false]
      rw [WarmPoolManager.updateById_ids_of_matching _ _ _ (by intro x hx; simp),
        hids₁]
    · intro x hx hxi
      have hx' := WarmPoolManager.eq_of_mem_updateById_const _ _ _ x hx (by simpa using hxi)
      rw [hx']
      simp

/-- C1 (amended): when the post-execution reset of a pool-acquired worker
raises, the worker is not returned to the pool in state WARM — its entry is
left in state RESETTING — but contrary to the original claim it is neither
removed from the pool nor destroyed in the container engine: the exception
is caught and only logged. -/
theorem reset_failure_not_released (cfg : LocalDockerConfig) (env : ExecEnv)
    (req : ExecutionRequest) (s : ExecutorState) (c : WarmContainer)
    (pool₁ : List WarmContainer) (e : String)
    (hacq : WarmPoolManager.acquire env.now_acquire s.pool = (some c, pool₁))
    (hreset : env.reset_failure = some e) :
    ResetFailureSpec cfg env req s c :=
  reset_failure_effects cfg env req s c pool₁ e hacq hreset

/-- State with one fresh WARM worker in the pool. -/
def warmStateCex : ExecutorState :=
  { pool := [wFresh], prov := initState.prov, destroyed := [], killed := [] }

/-- Environment in which the in-container run raises and the subsequent
reset raises as well. -/
def envResetFailCex : ExecEnv :=
  { now_acquire := 0, now_finish := 0, now_release := 1, elapsed_ms := 50,
    create_result := Except.error "unused",
    exec_outcome := ExecOutcome.raised "exec boom",
    reset_failure := some "reset failed" }

/-- Witness for C1 (amended) at a concrete input. -/
theorem reset_failure_not_released_witness :
    WarmPoolManager.acquire envResetFailCex.now_acquire warmStateCex.pool
        = (some (wFresh.mark_busy 0), [wFresh.mark_busy 0])
    ∧ envResetFailCex.reset_failure = some "reset failed"
    ∧ ResetFailureSpec cfgCex envResetFailCex reqCex warmStateCex
        (wFresh.mark_busy 0) :=
  ⟨rfl, rfl,
    reset_failure_not_released cfgCex envResetFailCex reqCex warmStateCex
      (wFresh.mark_busy 0) [wFresh.mark_busy 0] "reset failed" rfl rfl⟩

/-- C1 counterexample: after an execution whose reset raises, the acquired
worker `w1` is still in the pool and nothing was destroyed in the engine —
the claim says the worker is removed from the pool and destroyed. -/
theorem reset_failure_counterexample :
    "w1" ∈ (execute cfgCex envResetFailCex reqCex warmStateCex).2.pool.map
        WarmContainer.container_id
    ∧ (execute cfgCex envResetFailCex reqCex warmStateCex).2.destroyed = [] := by
  have h := reset_failure_effects cfgCex envResetFailCex reqCex warmStateCex
    (wFresh.mark_busy 0) [wFresh.mark_busy 0] "reset failed" rfl rfl
  refine ⟨?_, ?_⟩
  · rw [h.2.1]
    simp [warmStateCex, wFresh]
  · rw [h.1]
    rfl

/-! ### Claim C2 -/

/-- What happens on deadline expiry of an execution on a pool-acquired
worker: user processes in the worker are killed, the provider's timeout
counter increments by exactly one, an execution-timeout error is raised to
the caller; and — after a successful reset — the worker is removed (and
engine-destroyed) only when `should_replace` holds at release time, while
otherwise it is returned to the pool in state WARM. -/
def TimeoutSpec (cfg : LocalDockerConfig) (env : ExecEnv)
    (req : ExecutionRequest) (s : ExecutorState) (c : WarmContainer) : Prop :=
  (execute cfg env req s).1
      = ExecuteOutcome.timeout_raised req.timeout_ms req.execution_id
  ∧ (execute cfg env req s).2.killed = s.killed ++ [c.container_id]
  ∧ (execute cfg env req s).2.prov.metrics.timeout_executions
      = s.prov.metrics.timeout_executions + 1
  ∧ (env.reset_failure = none →
      ((c.record_execution (req.timeout_ms : ℚ) false).mark_resetting).should_replace
          cfg.container_ttl cfg.max_idle_time env.now_release = false →
      ((c.record_execution (req.timeout_ms : ℚ) false).mark_resetting).mark_warm
          ∈ (execute cfg env req s).2.pool
        ∧ (execute cfg env req s).2.destroyed = s.destroyed)
  ∧ (env.reset_failure = none →
      ((c.record_execution (req.timeout_ms : ℚ) false).mark_resetting).should_replace
          cfg.container_ttl cfg.max_idle_time env.now_release = true →
      (s.pool.map WarmContainer.container_id).Nodup →
      c.container_id ∉ (execute cfg env req s).2.pool.map WarmContainer.container_id
        ∧ (execute cfg env req s).2.destroyed = s.destroyed ++ [c.container_id])

theorem timeout_path_effects (cfg : LocalDockerConfig) (env : ExecEnv)
    (req : ExecutionRequest) (s : ExecutorState) (c : WarmContainer)
    (pool₁ : List WarmContainer)
    (hacq : WarmPoolManager.acquire env.now_acquire s.pool = (some c, pool₁))
    (hex : env.exec_outcome = ExecOutcome.timedOut) :
    TimeoutSpec cfg env req s c := by
  have hcmem : c ∈ pool₁ := by
    obtain ⟨l, c₀, r, hp, hl, hw, hd, hp'⟩ :=
      WarmPoolManager.acquire_some_decomp _ _ _ _ hacq
    rw [hp']
    simp
  have hids₁ : pool₁.map WarmContainer.container_id
      = s.pool.map WarmContainer.container_id := by
    have h := WarmPoolManager.acquire_ids env.now_acquire s.pool
    rw [hacq] at h
    exact h
  rw [TimeoutSpec, execute_warm_eq cfg env req s c pool₁ hacq]
  simp only [run_acquired, hex]
  refine ⟨by simp, ?_, ?_, ?_, ?_⟩
  · rw [finally_killed]
  · rw [finally_prov]
  · intro hreset hsr
    rw [finally_reset_ok_warm_eq cfg env _ _ hreset]
    simp only [Bool.false_eq_true, if_false]
    rw [WarmPoolManager.release, if_neg (by rw [hsr]; exact Bool.false_ne_true)]
    constructor
    · exact WarmPoolManager.mem_updateById_of_mem _ _ _ _
        (WarmPoolManager.mem_updateById_of_mem _ _ _ _
          (WarmPoolManager.mem_updateById_of_mem _ _ _ _ hcmem rfl) rfl) rfl
    · simp
  · intro hreset hsr hnodup
    rw [finally_reset_ok_warm_eq cfg env _ _ hreset]
    simp only [Bool.false_eq_true, if_false]
    rw [WarmPoolManager.release, if_pos hsr]
    have hids₂ :
        ((WarmPoolManager.updateById
            (c.record_execution (req.timeout_ms : ℚ) false).container_id
            (fun _ => (c.record_execution (req.timeout_ms : ℚ) false).mark_resetting)
            (WarmPoolManager.updateById c.container_id
              (fun _ => c.record_execution (req.timeout_ms : ℚ) false)
              pool₁)).map WarmContainer.container_id)
          = s.pool.map WarmContainer.container_id := by
      rw [WarmPoolManager.updateById_ids_of_matching _ _ _ (by intro x hx; simp),
        WarmPoolManager.updateById_ids_of_matching _ _ _ (by intro x hx; simp),
        hids₁]
    constructor
    · have hnot := WarmPoolManager.removeFirstById_not_mem
        ((c.record_execution (req.timeout_ms : ℚ) false).mark_resetting).container_id
        (WarmPoolManager.updateById
          (c.record_execution (req.timeout_ms : ℚ) false).container_id
          (fun _ => (c.record_execution (req.timeout_ms : ℚ) false).mark_resetting)
          (WarmPoolManager.updateById c.container_id
            (fun _ => c.record_execution (req.timeout_ms : ℚ) false)
            pool₁))
        (by rw [hids₂]; exact hnodup)
      simpa using hnot
    · simp

/-- C2 (amended): for every execution through the Local Provider whose
deadline expires on a pool-acquired worker: user processes inside the
worker are killed, `timeout_executions` increments by exactly 1, and an
execution-timeout error is raised to the caller.  Contrary to the original
claim, the worker is not unconditionally removed: after a successful reset
it is released through the ordinary pool `release`, which removes and
engine-destroys it only when `should_replace` holds at release time and
otherwise returns it to the pool in state WARM. -/
theorem timeout_path_spec (cfg : LocalDockerConfig) (env : ExecEnv)
    (req : ExecutionRequest) (s : ExecutorState) (c : WarmContainer)
    (pool₁ : List WarmContainer)
    (hacq : WarmPoolManager.acquire env.now_acquire s.pool = (some c, pool₁))
    (hex : env.exec_outcome = ExecOutcome.timedOut) :
    TimeoutSpec cfg env req s c :=
  timeout_path_effects cfg env req s c pool₁ hacq hex

/-- Environment of a warm execution whose deadline expires; the reset
succeeds. -/
def envTimeoutWarmCex : ExecEnv :=
  { now_acquire := 0, now_finish := 0, now_release := 1, elapsed_ms := 100,
    create_result := Except.error "unused",
    exec_outcome := ExecOutcome.timedOut,
    reset_failure := none }

/-- Witness for C2 (amended) at a concrete input. -/
theorem timeout_path_spec_witness :
    WarmPoolManager.acquire envTimeoutWarmCex.now_acquire warmStateCex.pool
        = (some (wFresh.mark_busy 0), [wFresh.mark_busy 0])
    ∧ envTimeoutWarmCex.exec_outcome = ExecOutcome.timedOut
    ∧ TimeoutSpec cfgCex envTimeoutWarmCex reqCex warmStateCex
        (wFresh.mark_busy 0) :=
  ⟨rfl, rfl,
    timeout_path_spec cfgCex envTimeoutWarmCex reqCex warmStateCex
      (wFresh.mark_busy 0) [wFresh.mark_busy 0] rfl rfl⟩

/-- The worker of the C2 counterexample as it stands after the timed-out
execution: statistics recorded, reset, and marked WARM again. -/
def wAfterTimeout : WarmContainer :=
  (((wFresh.mark_busy 0).record_execution (100 : ℚ) false).mark_resetting).mark_warm

/-- C2 counterexample: a fresh worker whose execution times out is returned
to the pool in state WARM (and nothing is destroyed in the engine) — the
claim says the worker used is removed and not returned to the pool in
state WARM. -/
theorem timeout_worker_not_removed_counterexample :
    (execute cfgCex envTimeoutWarmCex reqCex warmStateCex).1
        = ExecuteOutcome.timeout_raised 100 "e1"
    ∧ wAfterTimeout ∈ (execute cfgCex envTimeoutWarmCex reqCex warmStateCex).2.pool
    ∧ wAfterTimeout.state = ContainerState.warm
    ∧ (execute cfgCex envTimeoutWarmCex reqCex warmStateCex).2.destroyed = [] := by
  have h := timeout_path_effects cfgCex envTimeoutWarmCex reqCex warmStateCex
    (wFresh.mark_busy 0) [wFresh.mark_busy 0] rfl rfl
  have hsr : (((wFresh.mark_busy 0).record_execution
      ((reqCex.timeout_ms : ℤ) : ℚ) false).mark_resetting).should_replace
      cfgCex.container_ttl cfgCex.max_idle_time envTimeoutWarmCex.now_release
      = false := by
    norm_num [WarmContainer.should_replace, WarmContainer.age_seconds,
      WarmContainer.idle_seconds, WarmContainer.record_execution,
      WarmContainer.mark_busy, WarmContainer.mark_resetting, wFresh,
      reqCex, cfgCex, envTimeoutWarmCex]
    decide
  obtain ⟨hmem, hdes⟩ := h.2.2.2.1 rfl hsr
  refine ⟨h.1, ?_, rfl, ?_⟩
  · exact hmem
  · rw [hdes]
    rfl

/-! ### Claim C10 -/

/-- Whether `execute` got a worker in hand: the pool yielded one (warm hit),
or the pool was empty for the runtime and cold-start creation succeeded. -/
def container_obtained (env : ExecEnv) (s : ExecutorState) : Prop :=
  (∃ c pool₁, WarmPoolManager.acquire env.now_acquire s.pool = (some c, pool₁))
  ∨ ((WarmPoolManager.acquire env.now_acquire s.pool).1 = none
      ∧ ∃ c, env.create_result = Except.ok c)

/-- The attempt's cold-start flag: set iff the pool had no WARM worker. -/
def cold_flag (env : ExecEnv) (s : ExecutorState) : Bool :=
  ((WarmPoolManager.acquire env.now_acquire s.pool).1).isNone

theorem failure_result_fields (e : String) (el : ℚ) (b : Bool)
    (req : ExecutionRequest) :
    (failure_result e el b req).success = false
    ∧ (failure_result e el b req).stdout = ""
    ∧ (failure_result e el b req).stderr = e
    ∧ (failure_result e el b req).exit_code = -1
    ∧ (failure_result e el b req).cold_start = b := by
  simp [failure_result]

/-- What C10 states of one `execute` call: the call either returns a result
or raises; it raises exactly when a worker was obtained and the run timed
out; a failed cold-start creation and a raised in-container run are caught
and returned as a failure result whose fields are `success=false`,
`stdout=""`, `stderr=<error>`, `exit_code=-1`, with the attempt's cold-start
flag preserved. -/
def ErrorContainmentSpec (cfg : LocalDockerConfig) (env : ExecEnv)
    (req : ExecutionRequest) (s : ExecutorState) : Prop :=
  ((∃ r, (execute cfg env req s).1 = ExecuteOutcome.result r)
    ∨ (execute cfg env req s).1
        = ExecuteOutcome.timeout_raised req.timeout_ms req.execution_id)
  ∧ ((execute cfg env req s).1
        = ExecuteOutcome.timeout_raised req.timeout_ms req.execution_id
      ↔ (container_obtained env s ∧ env.exec_outcome = ExecOutcome.timedOut))
  ∧ (∀ e, (WarmPoolManager.acquire env.now_acquire s.pool).1 = none →
      env.create_result = Except.error e →
      (execute cfg env req s).1
        = ExecuteOutcome.result (failure_result e env.elapsed_ms true req))
  ∧ (∀ e, container_obtained env s → env.exec_outcome = ExecOutcome.raised e →
      (execute cfg env req s).1
        = ExecuteOutcome.result
            (failure_result e env.elapsed_ms (cold_flag env s) req))
  ∧ (∀ e el b, (failure_result e el b req).success = false
      ∧ (failure_result e el b req).stdout = ""
      ∧ (failure_result e el b req).stderr = e
      ∧ (failure_result e el b req).exit_code = -1
      ∧ (failure_result e el b req).cold_start = b)

/-- C10: `execute` raises to its caller only on deadline expiry (the
execution-timeout error); every other internal failure — a failed
cold-start creation or an error raised while preparing or running the
code — is caught and returned as a normal result with `success=false`,
`exit_code=-1`, empty stdout, the error message in stderr, and the
cold-start flag of the attempt preserved. -/
theorem execute_error_containment (cfg : LocalDockerConfig) (env : ExecEnv)
    (req : ExecutionRequest) (s : ExecutorState) :
    ErrorContainmentSpec cfg env req s := by
  rw [ErrorContainmentSpec]
  rcases hacq : WarmPoolManager.acquire env.now_acquire s.pool with ⟨o, pool₁⟩
  cases o with
  | some c =>
    have hobt : container_obtained env s := Or.inl ⟨c, pool₁, hacq⟩
    have hcold : cold_flag env s = false := by rw [cold_flag, hacq]; rfl
    rw [execute_warm_eq cfg env req s c pool₁ hacq]
    cases hex : env.exec_outcome with
    | completed ec out err =>
      simp only [run_acquired, hex]
      refine ⟨Or.inl ⟨_, rfl⟩, ?_, ?_, ?_,
        fun e el b => failure_result_fields e el b req⟩
      · simp [hex]
      · intro e h1 h2
        simp at h1
      · intro e hobt₂ hraise
        simp at hraise
    | timedOut =>
      simp only [run_acquired, hex]
      refine ⟨Or.inr (by trivial), ?_, ?_, ?_,
        fun e el b => failure_result_fields e el b req⟩
      · simp [hobt, hex]
      · intro e h1 h2
        simp at h1
      · intro e hobt₂ hraise
        simp at hraise
    | raised e₀ =>
      simp only [run_acquired, hex]
      refine ⟨Or.inl ⟨_, rfl⟩, ?_, ?_, ?_,
        fun e el b => failure_result_fields e el b req⟩
      · simp [hex]
      · intro e h1 h2
        simp at h1
      · intro e hobt₂ hraise
        simp only [ExecOutcome.raised.injEq] at hraise
        subst hraise
        rw [hcold]
  | none =>
    have hcold : cold_flag env s = true := by rw [cold_flag, hacq]; rfl
    cases hcr : env.create_result with
    | error e₀ =>
      have hnobt : ¬ container_obtained env s := by
        rintro (⟨c, p₂, habs⟩ | ⟨-, c, habs⟩)
        · rw [hacq] at habs
          simp at habs
        · rw [hcr] at habs
          simp at habs
      rw [execute_cold_fail_eq cfg env req s e₀ pool₁ hacq hcr]
      refine ⟨Or.inl ⟨_, rfl⟩, ?_, ?_, ?_,
        fun e el b => failure_result_fields e el b req⟩
      · simp [hnobt]
      · intro e h1 h2
        simp only [Except.error.injEq] at h2
        subst h2
        rfl
      · intro e hobt₂ hraise
        exact absurd hobt₂ hnobt
    | ok c =>
      have hobt : container_obtained env s :=
        Or.inr ⟨by rw [hacq], c, hcr⟩
      rw [execute_cold_ok_eq cfg env req s c pool₁ hacq hcr]
      cases hex : env.exec_outcome with
      | completed ec out err =>
        simp only [run_acquired, hex]
        refine ⟨Or.inl ⟨_, rfl⟩, ?_, ?_, ?_,
          fun e el b => failure_result_fields e el b req⟩
        · simp [hex]
        · intro e h1 h2
          simp at h2
        · intro e hobt₂ hraise
          simp at hraise
      | timedOut =>
        simp only [run_acquired, hex]
        refine ⟨Or.inr (by trivial), ?_, ?_, ?_,
          fun e el b => failure_result_fields e el b req⟩
        · simp [hobt, hex]
        · intro e h1 h2
          simp at h2
        · intro e hobt₂ hraise
          simp at hraise
      | raised e₀ =>
        simp only [run_acquired, hex]
        refine ⟨Or.inl ⟨_, rfl⟩, ?_, ?_, ?_,
          fun e el b => failure_result_fields e el b req⟩
        · simp [hex]
        · intro e h1 h2
          simp at h2
        · intro e hobt₂ hraise
          simp only [ExecOutcome.raised.injEq] at hraise
          subst hraise
          rw [hcold]

/-- Environment whose cold-start creation fails. -/
def envCreateFailCex : ExecEnv :=
  { now_acquire := 0, now_finish := 0, now_release := 0, elapsed_ms := 5,
    create_result := Except.error "docker down",
    exec_outcome := ExecOutcome.raised "unused",
    reset_failure := none }

/-- Witness instantiating C10 at a concrete cold-start creation failure. -/
theorem execute_error_containment_witness :
    (execute cfgCex envCreateFailCex reqCex initState).1
      = ExecuteOutcome.result
          (failure_result "docker down" envCreateFailCex.elapsed_ms true reqCex) := by
  have h := execute_error_containment cfgCex envCreateFailCex reqCex initState
  exact h.2.2.1 "docker down" rfl rfl

/-! ### Provider registry and dispatcher (`executor/registry.py`) -/

/-- The registry's mutable class state: the keys of `_executors`, the
default provider, and the fallback chain. -/
structure RegistryState where
  registered : List ExecutorProvider
  default_provider : ExecutorProvider
  fallback_chain : List ExecutorProvider
deriving Repr

/-- Observable behaviour of one provider for the current request: its
health check reports unhealthy, its health check raises, its `execute`
returns a result, or its `execute` raises. -/
inductive ProviderBehavior where
  | unhealthy
  | health_check_raises (e : String)
  | exec_ok (r : ExecutionResult)
  | exec_raises (e : String)
deriving Repr

def succeedsB : ProviderBehavior → Bool
  | .exec_ok _ => true
  | _ => false

/-- The error recorded (as `last_error`) when trying one provider: the
message of a raised health check or a raised `execute`, nothing when it is
skipped as unhealthy or succeeds. -/
def errOf : ProviderBehavior → Option String
  | .exec_raises e => some e
  | .health_check_raises e => some e
  | _ => none

inductive DispatchOutcome where
  | ok (r : ExecutionResult)
  | no_providers
  | all_failed (tried : List ExecutorProvider) (last_error : Option String)
deriving Repr

/-- The candidate list `execute_with_fallback` builds: the preferred
provider (if registered), then the default (if registered and not already
present), then each fallback-chain member (if registered and not already
present). -/
def build_providers (reg : RegistryState) (preferred : Option ExecutorProvider) :
    List ExecutorProvider :=
  let providers : List ExecutorProvider :=
    match preferred with
    | some p => if reg.registered.contains p then [p] else []
    | none => []
  let providers :=
    if ¬ providers.contains reg.default_provider
        ∧ reg.registered.contains reg.default_provider then
      providers ++ [reg.default_provider]
    else providers
  reg.fallback_chain.foldl
    (fun acc p =>
      if ¬ acc.contains p ∧ reg.registered.contains p then acc ++ [p] else acc)
    providers

/-- The provider loop of `execute_with_fallback`: skip unhealthy, record
and continue past raisers, return the first successful result, and after
the whole list raise not-available carrying the tried list and the last
error. -/
def try_in_order (behav : ExecutorProvider → ProviderBehavior)
    (tried : List ExecutorProvider) :
    List ExecutorProvider → Option String → DispatchOutcome
  | [], last_error => .all_failed tried last_error
  | p :: rest, last_error =>
    match behav p with
    | .unhealthy => try_in_order behav tried rest last_error
    | .health_check_raises e => try_in_order behav tried rest (some e)
    | .exec_ok r => .ok r
    | .exec_raises e => try_in_order behav tried rest (some e)

/-- Model of `ExecutorRegistry.execute_with_fallback` over the abstracted provider
behaviours. -/
def execute_with_fallback (reg : RegistryState)
    (behav : ExecutorProvider → ProviderBehavior)
    (preferred : Option ExecutorProvider) : DispatchOutcome :=
  let providers := build_providers reg preferred
  if providers.isEmpty then .no_providers
  else try_in_order behav providers providers none

/-- The seed sequence of candidates as the spec words it:
`[preferred?, default, *fallback_chain]`. -/
def candidate_seeds (reg : RegistryState) (preferred : Option ExecutorProvider) :
    List ExecutorProvider :=
  (match preferred with | some p => [p] | none => [])
    ++ [reg.default_provider] ++ reg.fallback_chain

def addUniqueProvider (acc : List ExecutorProvider) (p : ExecutorProvider) :
    List ExecutorProvider :=
  if acc.contains p then acc else acc ++ [p]

/-- The candidate list stated from the spec's words, for comparison with
`build_providers`: the seeds restricted to registered providers,
deduplicated keeping first occurrences, in order. -/
def spec_candidates (reg : RegistryState) (preferred : Option ExecutorProvider) :
    List ExecutorProvider :=
  ((candidate_seeds reg preferred).filter
    (fun p => reg.registered.contains p)).foldl addUniqueProvider []

theorem foldl_guarded_eq (reg : RegistryState) (l : List ExecutorProvider) :
    ∀ acc : List ExecutorProvider,
    l.foldl (fun acc p =>
        if ¬ acc.contains p ∧ reg.registered.contains p then acc ++ [p] else acc)
        acc
      = (l.filter (fun p => reg.registered.contains p)).foldl addUniqueProvider acc := by
  induction l with
  | nil => intro acc; rfl
  | cons p rest ih =>
    intro acc
    by_cases hreg : reg.registered.contains p = true
    · have hregm : p ∈ reg.registered := by simpa using hreg
      have hfc : (p :: rest).filter (fun q => reg.registered.contains q)
          = p :: rest.filter (fun q => reg.registered.contains q) := by
        simp [List.filter_cons, hregm]
      have hstep :
          (if ¬ acc.contains p ∧ reg.registered.contains p then acc ++ [p] else acc)
            = addUniqueProvider acc p := by
        by_cases hacc : acc.contains p = true
        · have haccm : p ∈ acc := by simpa using hacc
          simp [addUniqueProvider, haccm, hregm]
        · have haccm : p ∉ acc := by simpa using hacc
          simp [addUniqueProvider, haccm, hregm]
      rw [List.foldl_cons, hfc, List.foldl_cons, hstep, ih]
    · have hregm : p ∉ reg.registered := by simpa using hreg
      have hfc : (p :: rest).filter (fun q => reg.registered.contains q)
          = rest.filter (fun q => reg.registered.contains q) := by
        simp [List.filter_cons, hregm]
      have hstep :
          (if ¬ acc.contains p ∧ reg.registered.contains p then acc ++ [p] else acc)
            = acc := by
        simp [hregm]
      rw [List.foldl_cons, hfc, hstep, ih]

theorem build_providers_eq_spec (reg : RegistryState)
    (preferred : Option ExecutorProvider) :
    build_providers reg preferred = spec_candidates reg preferred := by
  rcases preferred with _ | p <;>
    simp only [build_providers, spec_candidates, candidate_seeds] <;>
    rw [foldl_guarded_eq]
  · by_cases hd : reg.default_provider ∈ reg.registered
    · simp [hd, List.foldl_cons, addUniqueProvider]
    · simp [hd]
  · by_cases hp : p ∈ reg.registered
    · by_cases hd : reg.default_provider ∈ reg.registered
      · by_cases hpd : reg.default_provider = p
        · simp [hp, hd, hpd, List.foldl_cons, addUniqueProvider]
        · simp [hp, hd, hpd, List.foldl_cons, addUniqueProvider]
      · simp [hp, hd, List.foldl_cons, addUniqueProvider]
    · by_cases hd : reg.default_provider ∈ reg.registered
      · simp [hp, hd, List.foldl_cons, addUniqueProvider]
      · simp [hp, hd]

/-- The running `last_error` after trying a list of providers starting from
`last`. -/
def last_error_from (behav : ExecutorProvider → ProviderBehavior) :
    List ExecutorProvider → Option String → Option String
  | [], last => last
  | p :: rest, last =>
    match errOf (behav p) with
    | some e => last_error_from behav rest (some e)
    | none => last_error_from behav rest last

theorem try_in_order_all_fail (behav : ExecutorProvider → ProviderBehavior)
    (tried : List ExecutorProvider) :
    ∀ (l : List ExecutorProvider) (last : Option String),
      (∀ q ∈ l, succeedsB (behav q) = false) →
      try_in_order behav tried l last
        = DispatchOutcome.all_failed tried (last_error_from behav l last) := by
  intro l
  induction l with
  | nil => intro last _; rfl
  | cons p rest ih =>
    intro last hall
    have hp := hall p (List.mem_cons_self p rest)
    have hrest : ∀ q ∈ rest, succeedsB (behav q) = false :=
      fun q hq => hall q (List.mem_cons_of_mem p hq)
    cases hb : behav p with
    | unhealthy =>
      simp only [try_in_order, hb, last_error_from, errOf]
      exact ih _ hrest
    | health_check_raises e =>
      simp only [try_in_order, hb, last_error_from, errOf]
      exact ih _ hrest
    | exec_ok r =>
      rw [hb] at hp
      simp [succeedsB] at hp
    | exec_raises e =>
      simp only [try_in_order, hb, last_error_from, errOf]
      exact ih _ hrest

theorem try_in_order_first_success (behav : ExecutorProvider → ProviderBehavior)
    (tried : List ExecutorProvider) :
    ∀ (l : List ExecutorProvider) (p : ExecutorProvider)
      (r : List ExecutorProvider) (res : ExecutionResult) (last : Option String),
      (∀ q ∈ l, succeedsB (behav q) = false) →
      behav p = ProviderBehavior.exec_ok res →
      try_in_order behav tried (l ++ p :: r) last = DispatchOutcome.ok res := by
  intro l
  induction l with
  | nil =>
    intro p r res last _ hp
    rw [List.nil_append, try_in_order, hp]
  | cons q rest ih =>
    intro p r res last hall hp
    have hq := hall q (List.mem_cons_self q rest)
    have hrest : ∀ x ∈ rest, succeedsB (behav x) = false :=
      fun x hx => hall x (List.mem_cons_of_mem q hx)
    rw [List.cons_append]
    cases hb : behav q with
    | unhealthy => simp only [try_in_order, hb]; exact ih p r res last hrest hp
    | health_check_raises e => simp only [try_in_order, hb]; exact ih p r res _ hrest hp
    | exec_ok s => rw [hb] at hq; simp [succeedsB] at hq
    | exec_raises e => simp only [try_in_order, hb]; exact ih p r res _ hrest hp

theorem last_error_from_none_eq (behav : ExecutorProvider → ProviderBehavior) :
    ∀ (l : List ExecutorProvider) (last : Option String),
      last_error_from behav l last
        = ((l.filterMap (fun p => errOf (behav p))).getLast?).elim last some := by
  intro l
  induction l with
  | nil => intro last; rfl
  | cons p rest ih =>
    intro last
    cases he : errOf (behav p) with
    | none =>
      rw [last_error_from, he, ih]
      simp [List.filterMap_cons, he]
    | some e =>
      rw [last_error_from, he]
      simp only [List.filterMap_cons, he, List.getLast?_cons]
      cases hg : (rest.filterMap (fun p => errOf (behav p))).getLast? <;>
        simp [ih, hg]

/-! ### Claim C6 -/

/-- What C6 states of dispatch-with-fallback: the candidate list equals the
spec's `[preferred?, default, *chain]` deduplicated and restricted to
registered providers; an empty candidate list raises an immediate
not-available error; the result of the first candidate whose `execute`
succeeds is returned, earlier candidates being skipped as unhealthy or
continued past on a raise; and when no candidate succeeds, a not-available
error carrying the whole tried list and the last underlying error is
raised only after every candidate has been tried. -/
def DispatchSpec (reg : RegistryState)
    (behav : ExecutorProvider → ProviderBehavior)
    (preferred : Option ExecutorProvider) : Prop :=
  build_providers reg preferred = spec_candidates reg preferred
  ∧ (build_providers reg preferred = [] →
      execute_with_fallback reg behav preferred = DispatchOutcome.no_providers)
  ∧ (∀ l p r res, build_providers reg preferred = l ++ p :: r →
      (∀ q ∈ l, succeedsB (behav q) = false) →
      behav p = ProviderBehavior.exec_ok res →
      execute_with_fallback reg behav preferred = DispatchOutcome.ok res)
  ∧ ((∀ q ∈ build_providers reg preferred, succeedsB (behav q) = false) →
      build_providers reg preferred ≠ [] →
      execute_with_fallback reg behav preferred
        = DispatchOutcome.all_failed (build_providers reg preferred)
            (((build_providers reg preferred).filterMap
                (fun p => errOf (behav p))).getLast?))

/-- C6: dispatch-with-fallback builds the deduplicated, registration-
filtered candidate list `[preferred?, default, *fallback_chain]`, raises an
immediate not-available error when it is empty, returns the result of the
first candidate whose `execute` succeeds (skipping unhealthy candidates and
continuing past raising ones), and otherwise raises a not-available error
carrying the last underlying error only after every candidate was tried. -/
theorem dispatch_fallback_spec (reg : RegistryState)
    (behav : ExecutorProvider → ProviderBehavior)
    (preferred : Option ExecutorProvider) : DispatchSpec reg behav preferred := by
  refine ⟨build_providers_eq_spec reg preferred, ?_, ?_, ?_⟩
  · intro hempty
    rw [execute_with_fallback]
    simp [hempty]
  · intro l p r res hsplit hl hp
    rw [execute_with_fallback]
    have hne : (build_providers reg preferred).isEmpty = false := by
      rw [hsplit]
      simp
    simp only [hne, Bool.false_eq_true, if_false]
    rw [hsplit, try_in_order_first_success behav _ l p r res none hl hp]
  · intro hall hne
    rw [execute_with_fallback]
    have hne' : (build_providers reg preferred).isEmpty = false := by
      simpa [List.isEmpty_iff] using hne
    simp only [hne', Bool.false_eq_true, if_false]
    rw [try_in_order_all_fail behav _ _ none hall, last_error_from_none_eq]
    cases hg : ((build_providers reg preferred).filterMap
        (fun p => errOf (behav p))).getLast? <;> simp [hg]

/-- A registry with a default and one fallback, and behaviour where the
default is unhealthy and the fallback succeeds. -/
def regCex : RegistryState :=
  { registered := [ExecutorProvider.local_docker, ExecutorProvider.aws_lambda]
    default_provider := ExecutorProvider.local_docker
    fallback_chain := [ExecutorProvider.aws_lambda] }

def resCex : ExecutionResult :=
  { success := true, stdout := "hi\n", stderr := "", exit_code := 0,
    execution_time_ms := 42, cold_start := false,
    provider := ExecutorProvider.aws_lambda }

def behavCex : ExecutorProvider → ProviderBehavior
  | .local_docker => ProviderBehavior.unhealthy
  | .aws_lambda => ProviderBehavior.exec_ok resCex
  | _ => ProviderBehavior.unhealthy

/-- Witness for C6: with the default unhealthy and the fallback healthy,
dispatch returns the fallback's result. -/
theorem dispatch_fallback_spec_witness :
    execute_with_fallback regCex behavCex none = DispatchOutcome.ok resCex := by
  have h := dispatch_fallback_spec regCex behavCex none
  refine h.2.2.1 [ExecutorProvider.local_docker] ExecutorProvider.aws_lambda []
    resCex rfl ?_ rfl
  intro q hq
  rcases List.mem_singleton.mp hq with rfl
  rfl

/-! ### Claim C7: container creation options (`WarmPoolManager._create_container`) -/

/-- Model of `RUNTIME_IMAGES` of the pool manager (covers every runtime, so the
`.get` fallback to `runtime.docker_image` is never taken). -/
def RUNTIME_IMAGES : Runtime → String
  | .python311 => "python:3.11-slim"
  | .python312 => "python:3.12-slim"
  | .node20 => "node:20-slim"
  | .node22 => "node:22-slim"
  | .go121 => "golang:1.21-alpine"
  | .go122 => "golang:1.22-alpine"
  | .rustLatest => "rust:slim"
  | .java17 => "openjdk:17-slim"
  | .java21 => "openjdk:21-slim"

/-- Model of `RUNTIME_COMMANDS` of the pool manager: every runtime keeps the worker
idle forever with `tail -f /dev/null` (also the `.get` default). -/
def RUNTIME_COMMANDS : Runtime → List String
  | .python311 => ["tail", "-f", "/dev/null"]
  | .python312 => ["tail", "-f", "/dev/null"]
  | .node20 => ["tail", "-f", "/dev/null"]
  | .node22 => ["tail", "-f", "/dev/null"]
  | .go121 => ["tail", "-f", "/dev/null"]
  | .go122 => ["tail", "-f", "/dev/null"]
  | .rustLatest => ["tail", "-f", "/dev/null"]
  | .java17 => ["tail", "-f", "/dev/null"]
  | .java21 => ["tail", "-f", "/dev/null"]

def Runtime.value : Runtime → String
  | .python311 => "python:3.11"
  | .python312 => "python:3.12"
  | .node20 => "node:20"
  | .node22 => "node:22"
  | .go121 => "go:1.21"
  | .go122 => "go:1.22"
  | .rustLatest => "rust:latest"
  | .java17 => "java:17"
  | .java21 => "java:21"

/-- The keyword arguments `_create_container` passes to
`docker_client.containers.run`.  `cap_drop = none` records that no
`cap_drop` option is passed at all. -/
structure ContainerRunOptions where
  image : String
  command : List String
  detach : Bool
  remove : Bool
  network_mode : String
  mem_limit : String
  nano_cpus : ℤ
  pids_limit : ℕ
  read_only : Bool
  tmpfs_tmp : String
  labels : List (String × String)
  security_opt : List String
  cap_drop : Option (List String)
deriving DecidableEq, Repr

/-- The options of `_create_container` as functions of the manager's
configured memory/CPU limits and the runtime.  `int(cpu_limit * 1e9)` is
modelled as the floor of the exact rational product (the CPU limit is
positive, where `int()` truncation and floor agree). -/
def create_container_options (memory_limit : String) (cpu_limit : ℚ)
    (rt : Runtime) : ContainerRunOptions :=
  { image := RUNTIME_IMAGES rt
    command := RUNTIME_COMMANDS rt
    detach := true
    remove := false
    network_mode := "none"
    mem_limit := memory_limit
    nano_cpus := (cpu_limit * 1000000000).floor
    pids_limit := 50
    read_only := false
    tmpfs_tmp := "size=10m,mode=1777"
    labels := [("nadoo.sandbox", "true"), ("nadoo.runtime", rt.value)]
    security_opt := ["no-new-privileges"]
    cap_drop := none }

/-- What C7 (amended) states of every created worker container: network
disabled, the configured memory cap, the configured CPU share (nano-CPUs),
a PIDs cap of exactly 50 (≤ 50), a 10 MiB writable `/tmp` tmpfs,
`no-new-privileges`, and the runtime's idle-forever command — but the root
filesystem is started writable (`read_only=False`) and no `cap_drop`
option is passed (capabilities are not dropped). -/
def CreateOptionsSpec (memory_limit : String) (cpu_limit : ℚ)
    (rt : Runtime) : Prop :=
  (create_container_options memory_limit cpu_limit rt).network_mode = "none"
  ∧ (create_container_options memory_limit cpu_limit rt).mem_limit = memory_limit
  ∧ (create_container_options memory_limit cpu_limit rt).nano_cpus
      = (cpu_limit * 1000000000).floor
  ∧ (create_container_options memory_limit cpu_limit rt).pids_limit = 50
  ∧ (create_container_options memory_limit cpu_limit rt).pids_limit ≤ 50
  ∧ (create_container_options memory_limit cpu_limit rt).tmpfs_tmp
      = "size=10m,mode=1777"
  ∧ (create_container_options memory_limit cpu_limit rt).security_opt
      = ["no-new-privileges"]
  ∧ (create_container_options memory_limit cpu_limit rt).command
      = ["tail", "-f", "/dev/null"]
  ∧ (create_container_options memory_limit cpu_limit rt).detach = true
  ∧ (create_container_options memory_limit cpu_limit rt).read_only = false
  ∧ (create_container_options memory_limit cpu_limit rt).cap_drop = none

/-- C7 (amended): every worker container the Pool Manager creates is
started with network disabled, the configured memory cap, the configured
CPU share, a PIDs cap of exactly 50, a 10 MiB writable `/tmp` tmpfs,
`no-new-privileges`, and the runtime's idle-forever command; contrary to
the original claim its root filesystem is writable (`read_only=False`,
"Need to write code files") and Linux capabilities are not dropped (no
`cap_drop` is passed). -/
theorem create_container_options_spec (memory_limit : String) (cpu_limit : ℚ)
    (rt : Runtime) : CreateOptionsSpec memory_limit cpu_limit rt := by
  cases rt <;>
    exact ⟨rfl, rfl, rfl, rfl, by norm_num [create_container_options],
      rfl, rfl, rfl, rfl, rfl, rfl⟩

/-- C7 counterexample: the creation options set `read_only=False` (a
writable root filesystem, not read-only) and pass no `cap_drop` (no
capabilities dropped), contradicting the claim for the default
configuration. -/
theorem create_options_counterexample :
    (create_container_options "256m" (1 / 2) Runtime.python311).read_only = false
    ∧ (create_container_options "256m" (1 / 2) Runtime.python311).cap_drop
        = none :=
  ⟨rfl, rfl⟩

end Sandbox
